import Mathlib

/-!
Verification of the claude-code-proxy request-processing pipeline.

Python text values are modelled as `List Char` (named `Str`); Python `in`
for strings is substring containment, modelled by `isSubstr`.  JSON values
(`dict[str, Any]` bodies, content blocks, ...) are modelled by the `JVal`
inductive; a Python `dict` is an insertion-ordered association list with
unique keys, and `dict.get / dict.pop / assignment` are the `dGet / dPop /
dSet` operations below.  Each embedded definition names the source function
it translates.
-/

/-- Python text (`str`), modelled as a list of characters. -/
abbrev Str : Type := List Char

/-- Conversion from a Lean string literal to the `Str` model. -/
def lit (s : String) : Str := s.data

/-- `isPfx p s` : `p` is a prefix of `s` (used to define substring search). -/
def isPfx : Str → Str → Bool
  | [], _ => true
  | _ :: _, [] => false
  | a :: as, b :: bs => a == b && isPfx as bs

/-- Python `pat in hay` on strings: substring containment. -/
def isSubstr (pat : Str) : Str → Bool
  | [] => isPfx pat []
  | c :: rest => isPfx pat (c :: rest) || isSubstr pat rest

/-- Python `hay.find(pat)`: index of the first occurrence, `none` if absent. -/
def findSub (hay pat : Str) : Option Nat :=
  match hay with
  | [] => if isPfx pat [] then some 0 else none
  | c :: rest =>
    if isPfx pat (c :: rest) then some 0
    else (findSub rest pat).map (· + 1)

/-- Python `s.replace(old, new, 1)`: replace the first occurrence only. -/
def replaceFirst (s old new : Str) : Str :=
  match findSub s old with
  | none => s
  | some i => List.take i s ++ new ++ List.drop (i + List.length old) s

/-- Python `sep.join(parts)`. -/
def joinSep (sep : Str) : List Str → Str
  | [] => []
  | [p] => p
  | p :: ps => p ++ sep ++ joinSep sep ps

/-- ASCII whitespace, as used by Python `str.lstrip()` on the texts involved. -/
def isSpaceChar (c : Char) : Bool :=
  c == ' ' || c == '\t' || c == '\n' || c == '\x0d' || c == '\x0b' || c == '\x0c'

/-- Python `s.lstrip()`. -/
def lstrip (s : Str) : Str := s.dropWhile isSpaceChar

/-- Python `s.strip()`. -/
def strip (s : Str) : Str :=
  ((s.dropWhile isSpaceChar).reverse.dropWhile isSpaceChar).reverse

/-- JSON value: the duck-typed request-body universe the proxy operates on. -/
inductive JVal where
  | str (s : Str)
  | num (n : Int)
  | bool (b : Bool)
  | null
  | arr (xs : List JVal)
  | obj (kvs : List (Str × JVal))

mutual

/-- Structural equality test on `JVal` (Python `==` on parsed JSON). -/
def jeq : JVal → JVal → Bool
  | .str a, .str b => a == b
  | .num a, .num b => a == b
  | .bool a, .bool b => a == b
  | .null, .null => true
  | .arr xs, .arr ys => jeqL xs ys
  | .obj xs, .obj ys => jeqO xs ys
  | _, _ => false

/-- Structural equality test on JSON arrays. -/
def jeqL : List JVal → List JVal → Bool
  | [], [] => true
  | x :: xs, y :: ys => jeq x y && jeqL xs ys
  | _, _ => false

/-- Structural equality test on JSON objects. -/
def jeqO : List (Str × JVal) → List (Str × JVal) → Bool
  | [], [] => true
  | (k, v) :: xs, (k2, v2) :: ys => k == k2 && jeq v v2 && jeqO xs ys
  | _, _ => false

end

mutual

theorem jeq_iff : ∀ a b : JVal, jeq a b = true ↔ a = b
  | .str a, .str b => by simp [jeq]
  | .num a, .num b => by simp [jeq]
  | .bool a, .bool b => by simp [jeq]
  | .null, .null => by simp [jeq]
  | .arr xs, .arr ys => by simp [jeq, jeqL_iff xs ys]
  | .obj xs, .obj ys => by simp [jeq, jeqO_iff xs ys]
  | .str _, .num _ => by simp [jeq]
  | .str _, .bool _ => by simp [jeq]
  | .str _, .null => by simp [jeq]
  | .str _, .arr _ => by simp [jeq]
  | .str _, .obj _ => by simp [jeq]
  | .num _, .str _ => by simp [jeq]
  | .num _, .bool _ => by simp [jeq]
  | .num _, .null => by simp [jeq]
  | .num _, .arr _ => by simp [jeq]
  | .num _, .obj _ => by simp [jeq]
  | .bool _, .str _ => by simp [jeq]
  | .bool _, .num _ => by simp [jeq]
  | .bool _, .null => by simp [jeq]
  | .bool _, .arr _ => by simp [jeq]
  | .bool _, .obj _ => by simp [jeq]
  | .null, .str _ => by simp [jeq]
  | .null, .num _ => by simp [jeq]
  | .null, .bool _ => by simp [jeq]
  | .null, .arr _ => by simp [jeq]
  | .null, .obj _ => by simp [jeq]
  | .arr _, .str _ => by simp [jeq]
  | .arr _, .num _ => by simp [jeq]
  | .arr _, .bool _ => by simp [jeq]
  | .arr _, .null => by simp [jeq]
  | .arr _, .obj _ => by simp [jeq]
  | .obj _, .str _ => by simp [jeq]
  | .obj _, .num _ => by simp [jeq]
  | .obj _, .bool _ => by simp [jeq]
  | .obj _, .null => by simp [jeq]
  | .obj _, .arr _ => by simp [jeq]

theorem jeqL_iff : ∀ xs ys : List JVal, jeqL xs ys = true ↔ xs = ys
  | [], [] => by simp [jeqL]
  | [], _ :: _ => by simp [jeqL]
  | _ :: _, [] => by simp [jeqL]
  | x :: xs, y :: ys => by simp [jeqL, jeq_iff x y, jeqL_iff xs ys]

theorem jeqO_iff : ∀ xs ys : List (Str × JVal), jeqO xs ys = true ↔ xs = ys
  | [], [] => by simp [jeqO]
  | [], _ :: _ => by simp [jeqO]
  | _ :: _, [] => by simp [jeqO]
  | (k, v) :: xs, (k2, v2) :: ys => by
    simp [jeqO, jeq_iff v v2, jeqO_iff xs ys, and_assoc]

end

instance : DecidableEq JVal := fun a b =>
  decidable_of_iff (jeq a b = true) (jeq_iff a b)

instance : Inhabited JVal := ⟨.null⟩

/-- A Python `dict[str, Any]`: ordered key/value pairs with unique keys. -/
abbrev Dict : Type := List (Str × JVal)

/-- Python `d.get(k)` (absence modelled by `none`). -/
def dGet (kvs : Dict) (k : Str) : Option JVal :=
  match kvs with
  | [] => none
  | (k2, v) :: rest => if k2 = k then some v else dGet rest k

/-- Python `d.get(k, default)`. -/
def dGetD (kvs : Dict) (k : Str) (dflt : JVal) : JVal :=
  (dGet kvs k).getD dflt

/-- Python `k in d`. -/
def dHas (kvs : Dict) (k : Str) : Bool :=
  (dGet kvs k).isSome

/-- Python `d[k] = v`: overwrite in place, else append (insertion order). -/
def dSet (kvs : Dict) (k : Str) (v : JVal) : Dict :=
  match kvs with
  | [] => [(k, v)]
  | (k2, v2) :: rest =>
    if k2 = k then (k2, v) :: rest else (k2, v2) :: dSet rest k v

/-- Python `d.pop(k, None)`: remove the key if present. -/
def dPop (kvs : Dict) (k : Str) : Dict :=
  match kvs with
  | [] => []
  | (k2, v2) :: rest => if k2 = k then rest else (k2, v2) :: dPop rest k

/-- Python truthiness of a JSON value (`if value:`). -/
def pyTruthy : JVal → Bool
  | .str s => !s.isEmpty
  | .num n => n != 0
  | .bool b => b
  | .null => false
  | .arr xs => !xs.isEmpty
  | .obj kvs => !kvs.isEmpty

/-! ### Python `str()` coercion

`extract_system_text` in `src/core/sanitize/system_prompt.py` applies
`str(...)` to arbitrary JSON values.  `pyStr` returns a string unchanged and
falls back to `pyRepr`, a rendering of Python's `repr` for the remaining
JSON shapes (decimal integers, `True`/`False`/`None`, bracketed sequences;
string escaping beyond quoting is not needed by any input considered here).
-/

/-- Decimal digits of a natural number. -/
def reprNat (n : Nat) : Str := Nat.toDigits 10 n

/-- Decimal rendering of a Python int. -/
def reprInt (n : Int) : Str :=
  if n < 0 then '-' :: reprNat n.natAbs else reprNat n.toNat

mutual

/-- Python `repr` on JSON values (see section comment). -/
def pyRepr : JVal → Str
  | .str s => '\x27' :: (s ++ ['\x27'])
  | .num n => reprInt n
  | .bool b => if b then lit "True" else lit "False"
  | .null => lit "None"
  | .arr xs => '[' :: (joinSep (lit ", ") (pyReprL xs) ++ [']'])
  | .obj kvs => '\x7b' :: (joinSep (lit ", ") (pyReprO kvs) ++ ['\x7d'])

/-- `repr` of each array element. -/
def pyReprL : List JVal → List Str
  | [] => []
  | x :: xs => pyRepr x :: pyReprL xs

/-- `repr` of each object entry. -/
def pyReprO : List (Str × JVal) → List Str
  | [] => []
  | (k, v) :: kvs =>
    (('\x27' :: (k ++ ['\x27'])) ++ lit ": " ++ pyRepr v) :: pyReprO kvs

end

/-- Python `str(value)`. -/
def pyStr : JVal → Str
  | .str s => s
  | v => pyRepr v

/-- A JSON value that is a string (used where Python would `TypeError`
on anything else, e.g. `" ".join(parts)`). -/
def asStr : JVal → Option Str
  | .str s => some s
  | _ => none

/-! ### `src/core/router.py` — RouteDecider -/

/-- `RouteDecision` (src/core/router.py): routing decision for a request. -/
structure RouteDecision where
  route : Str
  model_override : Option Str := none
  deriving DecidableEq

namespace RouteDecider

/-- Loop body of `RouteDecider._extract_system_text`: a dict element
contributes `item.get("text", "")` to `parts`; any other element
contributes nothing. -/
def extract_part : JVal → Option JVal
  | .obj kvs => some (dGetD kvs (lit "text") (.str []))
  | _ => none

/-- `RouteDecider._extract_system_text` (src/core/router.py).  For a list,
only dict elements contribute `item.get("text", "")`; the collected parts
are joined with a single space.  `" ".join` requires every part to be a
string, so a dict whose `"text"` value is not a string makes Python raise;
that exceptional outcome is modelled by `none`. -/
def extract_system_text (system : JVal) : Option Str :=
  match system with
  | .str s => some s
  | .arr items => ((items.filterMap extract_part).mapM asStr).map (joinSep (lit " "))
  | _ => some []

/-- `RouteDecider.decide` (src/core/router.py): anthropic-marker exclusion
first, then subagent markers, default anthropic.  `none` propagates the
modelled `TypeError` from `_extract_system_text`. -/
def decide (subagent_markers anthropic_markers : List Str) (body : Dict) :
    Option RouteDecision :=
  (extract_system_text (dGetD body (lit "system") (.arr []))).map fun t =>
    if anthropic_markers.any fun m => isSubstr m t then
      ⟨lit "anthropic", none⟩
    else if subagent_markers.any fun m => isSubstr m t then
      ⟨lit "zai", none⟩
    else
      ⟨lit "anthropic", none⟩

end RouteDecider

/-! ### `src/core/sanitize/system_prompt.py` — extraction helpers -/

namespace system_prompt

/-- `extract_system_text` (src/core/sanitize/system_prompt.py): for a list,
every element contributes — dict elements via `str(item.get("text", ""))`,
non-dict elements via `str(item)` — joined with a newline; otherwise
`str(system)` when truthy, the empty string when falsy. -/
def extract_system_text (system : JVal) : Str :=
  match system with
  | .arr items =>
    joinSep (lit "\n") (items.map fun item =>
      match item with
      | .obj kvs => pyStr (dGetD kvs (lit "text") (.str []))
      | _ => pyStr item)
  | sys => if pyTruthy sys then pyStr sys else []

end system_prompt

/-- C1: `RouteDecider.decide` returns route `"anthropic"` whenever any
configured anthropic (force-primary) marker is a substring of the extracted
system text — regardless of subagent markers —, otherwise `"zai"` when any
subagent (secondary) marker is a substring, otherwise `"anthropic"`. -/
theorem C1_route_decider_marker_precedence
    (sm am : List Str) (body : Dict) (t : Str)
    (hx : RouteDecider.extract_system_text (dGetD body (lit "system") (.arr []))
      = some t) :
    ((am.any fun m => isSubstr m t) = true →
        RouteDecider.decide sm am body = some ⟨lit "anthropic", none⟩)
    ∧ ((am.any fun m => isSubstr m t) = false →
        (sm.any fun m => isSubstr m t) = true →
        RouteDecider.decide sm am body = some ⟨lit "zai", none⟩)
    ∧ ((am.any fun m => isSubstr m t) = false →
        (sm.any fun m => isSubstr m t) = false →
        RouteDecider.decide sm am body = some ⟨lit "anthropic", none⟩) := by
  unfold RouteDecider.decide
  rw [hx]
  refine ⟨fun h1 => ?_, fun h1 h2 => ?_, fun h1 h2 => ?_⟩ <;>
    simp only [Option.map_some']
  · rw [h1]; rfl
  · rw [h1, h2]; rfl
  · rw [h1, h2]; rfl

/-- C1 witness: a system prompt containing both a force-primary marker and a
subagent marker routes to anthropic (exclusion precedence). -/
theorem C1_route_decider_marker_precedence_witness :
    RouteDecider.extract_system_text
        (dGetD [(lit "system", JVal.str (lit "zz force-primary zz subagent zz"))]
          (lit "system") (.arr []))
      = some (lit "zz force-primary zz subagent zz")
    ∧ (([lit "force-primary"].any fun m =>
          isSubstr m (lit "zz force-primary zz subagent zz")) = true)
    ∧ RouteDecider.decide [lit "subagent"] [lit "force-primary"]
        [(lit "system", JVal.str (lit "zz force-primary zz subagent zz"))]
      = some ⟨lit "anthropic", none⟩ :=
  ⟨by decide, by decide,
    (C1_route_decider_marker_precedence [lit "subagent"] [lit "force-primary"]
        [(lit "system", JVal.str (lit "zz force-primary zz subagent zz"))]
        (lit "zz force-primary zz subagent zz") (by decide)).1 (by decide)⟩

/-- `isinstance(item, dict)`. -/
def isDictJ : JVal → Bool
  | .obj _ => true
  | _ => false

/-- Non-dict elements contribute nothing to the router's system-text parts. -/
theorem routerParts_skip_nondict (items : List JVal) :
    (items.filter isDictJ).filterMap RouteDecider.extract_part
      = items.filterMap RouteDecider.extract_part := by
  induction items with
  | nil => rfl
  | cons x xs ih =>
    cases x <;>
      simp [List.filter_cons, List.filterMap_cons, isDictJ,
        RouteDecider.extract_part, ih]

/-- C9 counterexample: on the list `["hello"]` the router's extractor
(`RouteDecider._extract_system_text`) skips the non-dict element and yields
the empty string — it does not include the element's string form — while
the sanitizer's `extract_system_text` does include it. -/
theorem C9_counterexample :
    RouteDecider.extract_system_text (.arr [.str (lit "hello")]) = some []
    ∧ system_prompt.extract_system_text (.arr [.str (lit "hello")])
      = lit "hello" := by
  constructor <;> decide

/-- C9 amended: both extractors return a string input unchanged and the
empty string for `None`; on lists they diverge — the router's extractor
drops non-dict elements entirely (it only collects dict elements'
`"text"`), while the sanitizer's extractor coerces a non-dict element to
its string form and includes it. -/
theorem C9_extract_text_amended (s : Str) (items : List JVal) :
    RouteDecider.extract_system_text (.str s) = some s
    ∧ system_prompt.extract_system_text (.str s) = s
    ∧ RouteDecider.extract_system_text .null = some []
    ∧ system_prompt.extract_system_text .null = []
    ∧ RouteDecider.extract_system_text (.arr (items.filter isDictJ))
      = RouteDecider.extract_system_text (.arr items)
    ∧ system_prompt.extract_system_text (.arr [.str s]) = s := by
  refine ⟨rfl, ?_, rfl, rfl, ?_, ?_⟩
  · cases s <;> simp [system_prompt.extract_system_text, pyTruthy, pyStr]
  · simp only [RouteDecider.extract_system_text]
    rw [routerParts_skip_nondict]
  · rfl

/-! ### `src/core/transform.py` — z.ai compatibility stripping -/

namespace transform

/-- `NOISE_PATTERNS` (src/core/transform.py). -/
def NOISE_PATTERNS : List Str :=
  [lit "TodoWrite tool hasn\x27t been used",
   lit "Plan mode is active",
   lit "consider whether it would be considered malware",
   lit "SessionStart:",
   lit "UserPromptSubmit:"]

/-- `_is_noise_reminder` (src/core/transform.py): a text block containing a
`<system-reminder>` that matches a noise pattern, unless it carries the
`# claudeMd` preserve marker. -/
def is_noise_reminder (block : JVal) : Bool :=
  match block with
  | .obj kvs =>
    if dGet kvs (lit "type") ≠ some (.str (lit "text")) then false
    else
      match dGetD kvs (lit "text") (.str []) with
      | .str t =>
        if !isSubstr (lit "<system-reminder>") t then false
        else if isSubstr (lit "# claudeMd") t then false
        else NOISE_PATTERNS.any fun p => isSubstr p t
      | _ => false
  | _ => false

/-- The content-list comprehensions of `strip_anthropic_features`: filter
out noise reminders, copy the surviving dict blocks, and remove their
`cache_control`. -/
def clean_blocks (blocks : List JVal) : List JVal :=
  (blocks.filter fun b => !is_noise_reminder b).map fun b =>
    match b with
    | .obj bk => .obj (dPop bk (lit "cache_control"))
    | _ => b

/-- Per-message loop body of `strip_anthropic_features`: when the message's
content is a list, assign the noise-filtered blocks (copied, with
`cache_control` removed) — unconditionally, with no emptiness check.
Messages are dicts per the request data model (Python would raise
otherwise). -/
def strip_message_blocks (msg : JVal) : JVal :=
  match msg with
  | .obj kvs =>
    match dGet kvs (lit "content") with
    | some (.arr blocks) =>
      .obj (dSet kvs (lit "content") (.arr (clean_blocks blocks)))
    | _ => msg
  | _ => msg

/-- `strip_anthropic_features` (src/core/transform.py), value semantics of
the returned body: pop `metadata`, drop `cache_control` from dict elements
of a list-valued `system`, and filter/clean each message's list-valued
content.  (The aliasing behaviour of the same function is modelled
separately on an explicit heap for the frame claim.) -/
def strip_anthropic_features (body : Dict) : Dict :=
  let body := dPop body (lit "metadata")
  let body :=
    match dGet body (lit "system") with
    | some (.arr items) =>
      dSet body (lit "system") (.arr (items.map fun item =>
        match item with
        | .obj kvs => .obj (dPop kvs (lit "cache_control"))
        | _ => item))
    | _ => body
  match dGet body (lit "messages") with
  | some (.arr msgs) =>
    dSet body (lit "messages") (.arr (msgs.map strip_message_blocks))
  | _ => body

end transform

/-- C3 counterexample: a user message whose single content block is a noise
system-reminder.  `strip_anthropic_features` filters the block and assigns
the now-empty list — the message's originally non-empty content list is
left empty, contradicting the claimed invariant. -/
theorem C3_counterexample :
    transform.strip_anthropic_features
      [(lit "messages", .arr [.obj [(lit "role", .str (lit "user")),
        (lit "content", .arr [.obj [(lit "type", .str (lit "text")),
          (lit "text",
            .str (lit "<system-reminder>Plan mode is active</system-reminder>"))]])]])]
    = [(lit "messages", .arr [.obj [(lit "role", .str (lit "user")),
        (lit "content", .arr [])]])] := by
  decide

/-- C3 amended: the filtering assigns unconditionally — there is no
skip-if-empty guard — so a list-valued message content ends up empty
exactly when every original block is a noise reminder. -/
theorem C3_strip_empty_content_amended (kvs : Dict) (blocks : List JVal)
    (h : dGet kvs (lit "content") = some (.arr blocks)) :
    transform.strip_message_blocks (.obj kvs)
      = .obj (dSet kvs (lit "content") (.arr (transform.clean_blocks blocks)))
    ∧ (transform.clean_blocks blocks = []
        ↔ ∀ b ∈ blocks, transform.is_noise_reminder b = true) := by
  constructor
  · unfold transform.strip_message_blocks
    dsimp only
    rw [h]
  · unfold transform.clean_blocks
    simp [List.map_eq_nil_iff, List.filter_eq_nil_iff]

/-- C3 amended, witness: a two-block content list (one noise reminder, one
plain text block) keeps exactly the non-noise block. -/
theorem C3_strip_empty_content_amended_witness :
    dGet [(lit "role", .str (lit "user")),
        (lit "content", .arr [.obj [(lit "type", .str (lit "text")),
        (lit "text",
          .str (lit "<system-reminder>Plan mode is active</system-reminder>"))],
          .obj [(lit "type", .str (lit "text")), (lit "text", .str (lit "hi"))]])]
      (lit "content")
      = some (.arr [.obj [(lit "type", .str (lit "text")),
        (lit "text",
          .str (lit "<system-reminder>Plan mode is active</system-reminder>"))],
          .obj [(lit "type", .str (lit "text")), (lit "text", .str (lit "hi"))]])
    ∧ (transform.strip_message_blocks (.obj [(lit "role", .str (lit "user")),
        (lit "content", .arr [.obj [(lit "type", .str (lit "text")),
        (lit "text",
          .str (lit "<system-reminder>Plan mode is active</system-reminder>"))],
          .obj [(lit "type", .str (lit "text")), (lit "text", .str (lit "hi"))]])])
      = .obj (dSet [(lit "role", .str (lit "user")),
          (lit "content", .arr [.obj [(lit "type", .str (lit "text")),
        (lit "text",
          .str (lit "<system-reminder>Plan mode is active</system-reminder>"))],
            .obj [(lit "type", .str (lit "text")), (lit "text", .str (lit "hi"))]])]
          (lit "content")
          (.arr (transform.clean_blocks [.obj [(lit "type", .str (lit "text")),
        (lit "text",
          .str (lit "<system-reminder>Plan mode is active</system-reminder>"))],
            .obj [(lit "type", .str (lit "text")), (lit "text", .str (lit "hi"))]])))
      ∧ (transform.clean_blocks [.obj [(lit "type", .str (lit "text")),
        (lit "text",
          .str (lit "<system-reminder>Plan mode is active</system-reminder>"))],
          .obj [(lit "type", .str (lit "text")), (lit "text", .str (lit "hi"))]] = []
        ↔ ∀ b ∈ [.obj [(lit "type", .str (lit "text")),
        (lit "text",
          .str (lit "<system-reminder>Plan mode is active</system-reminder>"))],
            JVal.obj [(lit "type", .str (lit "text")), (lit "text", .str (lit "hi"))]],
            transform.is_noise_reminder b = true)) :=
  ⟨by decide, C3_strip_empty_content_amended _ _ (by decide)⟩

/-! ### `src/core/tool_tracker.py` — tool-usage warnings -/

namespace tool_tracker

/-- Soft-band text of `_get_warning_message` (f-string with the two numbers
substituted). -/
def soft_text (tool_count threshold : Int) : Str :=
  lit "<system-reminder>Tool usage notice: You have used " ++ reprInt tool_count
    ++ lit " tools (threshold: " ++ reprInt threshold
    ++ lit "). Consider wrapping up your current task and returning your "
    ++ lit "status to the main session. It\x27s better to return partial "
    ++ lit "progress than to continue indefinitely.</system-reminder>"

/-- Strong-band text of `_get_warning_message`. -/
def strong_text (tool_count strong_threshold : Int) : Str :=
  lit "<system-reminder>WARNING: You have used " ++ reprInt tool_count
    ++ lit " tools (threshold: " ++ reprInt strong_threshold
    ++ lit "). You should wrap up your current task "
    ++ lit "now and return your status to the main session. Finish what "
    ++ lit "you\x27re doing and report back - don\x27t start new work.</system-reminder>"

/-- Critical-band text of `_get_warning_message`. -/
def critical_text (tool_count critical_threshold : Int) : Str :=
  lit "<system-reminder>CRITICAL: You have used " ++ reprInt tool_count
    ++ lit " tools (limit: " ++ reprInt critical_threshold
    ++ lit "). You MUST stop now and return your "
    ++ lit "status to the main session immediately. Report what you\x27ve completed "
    ++ lit "and what remains. Do not use any more tools.</system-reminder>"

/-- `_get_warning_message` (src/core/tool_tracker.py): escalating message by
band, `none` below the base threshold. -/
def get_warning_message (tool_count threshold : Int) : Option Str :=
  let critical_threshold := threshold + 20
  let strong_threshold := threshold + 10
  if tool_count ≥ critical_threshold then
    some (critical_text tool_count critical_threshold)
  else if tool_count ≥ strong_threshold then
    some (strong_text tool_count strong_threshold)
  else if tool_count ≥ threshold then
    some (soft_text tool_count threshold)
  else
    none

/-- Scan of `range(len(messages) - 1, -1, -1)` looking for the last message
with `role == "user"`, taking the messages already reversed and the index
of the first element.  Python calls `.get` on each element it visits, so a
non-dict element visited before a user message is found raises — modelled
by the outer `none`; `some none` means the scan finished without a user
message. -/
def last_user_scan : List JVal → Nat → Option (Option Nat)
  | [], _ => some none
  | .obj kvs :: rest, i =>
    if dGet kvs (lit "role") = some (.str (lit "user")) then some (some i)
    else last_user_scan rest (i - 1)
  | _ :: _, _ => none

/-- Body of the found-a-user-message branch of `inject_tool_limit_reminder`:
copy the message at `i` and prepend the reminder to its content — string
concatenation for string content, a leading text block for list content,
and bare assignment of the reminder otherwise. -/
def inject_into (msgs : List JVal) (i : Nat) (reminder : Str) :
    Option (List JVal) :=
  match msgs[i]? with
  | some (.obj kvs) =>
    let newMsg :=
      match dGet kvs (lit "content") with
      | some (.str c) =>
        JVal.obj (dSet kvs (lit "content")
          (.str (reminder ++ lit "\n\n" ++ c)))
      | some (.arr bs) =>
        JVal.obj (dSet kvs (lit "content")
          (.arr (.obj [(lit "type", .str (lit "text")),
            (lit "text", .str reminder)] :: bs)))
      | _ =>
        JVal.obj (dSet kvs (lit "content") (.str reminder))
    some (msgs.set i newMsg)
  | _ => none

/-- `inject_tool_limit_reminder` (src/core/tool_tracker.py).  Value
semantics of the returned body; `none` models the Python exceptions on a
truthy non-list `messages` value or a non-dict message reached by the
backwards scan. -/
def inject_tool_limit_reminder (body : Dict) (tool_count threshold : Int) :
    Option Dict :=
  match get_warning_message tool_count threshold with
  | none => some body
  | some reminder =>
    let messages := dGetD body (lit "messages") (.arr [])
    if !pyTruthy messages then some body
    else
      match messages with
      | .arr msgs =>
        match last_user_scan msgs.reverse (msgs.length - 1) with
        | none => none
        | some none => some body
        | some (some i) =>
          (inject_into msgs i reminder).map fun newMsgs =>
            dSet body (lit "messages") (.arr newMsgs)
      | _ => none

end tool_tracker

/-- A three-message conversation used to state the injection behaviour: an
older user message, an assistant reply, and a most-recent user message with
content `c`. -/
def demo_body (c : JVal) : Dict :=
  [(lit "messages", .arr
    [.obj [(lit "role", .str (lit "user")), (lit "content", .str (lit "earlier"))],
     .obj [(lit "role", .str (lit "assistant")), (lit "content", .str (lit "reply"))],
     .obj [(lit "role", .str (lit "user")), (lit "content", c)]])]

/-- C5 counterexample: with `threshold = 0` (≤ 0) and `count = 0` the
function is not a no-op — `count >= threshold` selects the soft template
and injects it into the user message, contradicting the claimed
`threshold <= 0` no-op (that guard lives in the caller, not here). -/
theorem C5_counterexample :
    tool_tracker.inject_tool_limit_reminder
      [(lit "messages", .arr [.obj [(lit "role", .str (lit "user")),
        (lit "content", .str (lit "hi"))]])] 0 0
    ≠ some [(lit "messages", .arr [.obj [(lit "role", .str (lit "user")),
        (lit "content", .str (lit "hi"))]])] := by
  decide

/-- C5 amended: `inject_tool_limit_reminder` is a no-op when
`count < threshold` (for any threshold, including ≤ 0) and when no
user-authored message exists; otherwise it selects the band template —
`[threshold, threshold+10)` soft naming `threshold`,
`[threshold+10, threshold+20)` strong naming `threshold+10`,
`[threshold+20, ∞)` critical naming `threshold+20` — and prepends it onto
the most recent user-authored message: string concatenation for string
content, a leading text block for list content. -/
theorem C5_inject_warning_amended (body : Dict) (tool_count threshold : Int)
    (msgs : List JVal) (c : Str) (bs : List JVal) :
    (tool_count < threshold →
      tool_tracker.inject_tool_limit_reminder body tool_count threshold
        = some body)
    ∧ (dGetD body (lit "messages") (.arr []) = .arr msgs →
      tool_tracker.last_user_scan msgs.reverse (msgs.length - 1) = some none →
      tool_tracker.inject_tool_limit_reminder body tool_count threshold
        = some body)
    ∧ (threshold ≤ tool_count → tool_count < threshold + 10 →
      tool_tracker.inject_tool_limit_reminder (demo_body (.str c))
          tool_count threshold
        = some (demo_body (.str
            (tool_tracker.soft_text tool_count threshold ++ lit "\n\n" ++ c))))
    ∧ (threshold ≤ tool_count → tool_count < threshold + 10 →
      tool_tracker.inject_tool_limit_reminder (demo_body (.arr bs))
          tool_count threshold
        = some (demo_body (.arr (.obj [(lit "type", .str (lit "text")),
            (lit "text", .str (tool_tracker.soft_text tool_count threshold))]
            :: bs))))
    ∧ (threshold + 10 ≤ tool_count → tool_count < threshold + 20 →
      tool_tracker.inject_tool_limit_reminder (demo_body (.str c))
          tool_count threshold
        = some (demo_body (.str
            (tool_tracker.strong_text tool_count (threshold + 10)
              ++ lit "\n\n" ++ c))))
    ∧ (threshold + 20 ≤ tool_count →
      tool_tracker.inject_tool_limit_reminder (demo_body (.str c))
          tool_count threshold
        = some (demo_body (.str
            (tool_tracker.critical_text tool_count (threshold + 20)
              ++ lit "\n\n" ++ c)))) := by
  refine ⟨fun h1 => ?_, fun hm hs => ?_, fun h1 h2 => ?_, fun h1 h2 => ?_,
    fun h1 h2 => ?_, fun h1 => ?_⟩
  · have hw : tool_tracker.get_warning_message tool_count threshold = none := by
      unfold tool_tracker.get_warning_message
      rw [if_neg (by omega), if_neg (by omega), if_neg (by omega)]
    unfold tool_tracker.inject_tool_limit_reminder
    rw [hw]
  · unfold tool_tracker.inject_tool_limit_reminder
    cases hgw : tool_tracker.get_warning_message tool_count threshold with
    | none => rfl
    | some r =>
      simp only [hm]
      cases msgs with
      | nil => rfl
      | cons m ms =>
        have ht : pyTruthy (.arr (m :: ms)) = true := rfl
        simp only [ht, Bool.not_true, Bool.false_eq_true, if_false]
        rw [hs]
  · have hw : tool_tracker.get_warning_message tool_count threshold
        = some (tool_tracker.soft_text tool_count threshold) := by
      unfold tool_tracker.get_warning_message
      rw [if_neg (by omega), if_neg (by omega), if_pos (by omega)]
    unfold tool_tracker.inject_tool_limit_reminder
    rw [hw]
    rfl
  · have hw : tool_tracker.get_warning_message tool_count threshold
        = some (tool_tracker.soft_text tool_count threshold) := by
      unfold tool_tracker.get_warning_message
      rw [if_neg (by omega), if_neg (by omega), if_pos (by omega)]
    unfold tool_tracker.inject_tool_limit_reminder
    rw [hw]
    rfl
  · have hw : tool_tracker.get_warning_message tool_count threshold
        = some (tool_tracker.strong_text tool_count (threshold + 10)) := by
      unfold tool_tracker.get_warning_message
      rw [if_neg (by omega), if_pos (by omega)]
    unfold tool_tracker.inject_tool_limit_reminder
    rw [hw]
    rfl
  · have hw : tool_tracker.get_warning_message tool_count threshold
        = some (tool_tracker.critical_text tool_count (threshold + 20)) := by
      unfold tool_tracker.get_warning_message
      rw [if_pos (by omega)]
    unfold tool_tracker.inject_tool_limit_reminder
    rw [hw]
    rfl

/-- C5 amended, witness: count 5 with threshold 3 lies in the soft band and
prepends the soft template onto the most recent user message. -/
theorem C5_inject_warning_amended_witness :
    tool_tracker.inject_tool_limit_reminder (demo_body (.str (lit "hi"))) 5 3
      = some (demo_body (.str
          (tool_tracker.soft_text 5 3 ++ lit "\n\n" ++ lit "hi"))) :=
  (C5_inject_warning_amended [] 5 3 [] (lit "hi") []).2.2.1
    (by decide) (by decide)

/-! ### `src/core/sanitize/system_prompt.py` — replacement -/

namespace system_prompt

/-- `_extract_env_block` (src/core/sanitize/system_prompt.py): the first
`<env>...</env>` span, `none` when the text is empty or a tag is missing.
`text.find("</env>", start)` searches from `start`, so the close-tag offset
is found in `text.drop start`. -/
def extract_env_block (text : Str) : Option Str :=
  if text.isEmpty then none
  else
    match findSub text (lit "<env>") with
    | none => none
    | some start =>
      match findSub (text.drop start) (lit "</env>") with
      | none => none
      | some off => some ((text.drop start).take (off + (lit "</env>").length))

/-- `_merge_env` (src/core/sanitize/system_prompt.py): splice the original
env block over the base prompt's own env block (first occurrence).  An
extracted block always contains `<env>`, so the `if not ...` falsiness
checks coincide with the `none` checks. -/
def merge_env (base_prompt original_system : Str) : Str :=
  match extract_env_block original_system with
  | none => base_prompt
  | some original_env =>
    match extract_env_block base_prompt with
    | none => base_prompt
    | some base_env => replaceFirst base_prompt base_env original_env

/-- The match condition of `_normalize_system`'s list loop: a dict element
whose `"text"` value is a string containing the built-in-prompt marker. -/
def matches_marker (item : JVal) : Bool :=
  match item with
  | .obj kvs =>
    match dGet kvs (lit "text") with
    | some (.str t) => isSubstr (lit "You are an interactive CLI tool") t
    | _ => false
  | _ => false

/-- `new_item = dict(item); new_item["text"] = system_prompt` (only reached
on dict items). -/
def replaced_item (item : JVal) (system_prompt : Str) : JVal :=
  match item with
  | .obj kvs => .obj (dSet kvs (lit "text") (.str system_prompt))
  | _ => item

/-- The list loop of `_normalize_system`: every matching element's text is
replaced; the flag records whether any matched. -/
def normalize_list (system_prompt : Str) : List JVal → List JVal × Bool
  | [] => ([], false)
  | item :: rest =>
    let r := normalize_list system_prompt rest
    if matches_marker item then (replaced_item item system_prompt :: r.1, true)
    else (item :: r.1, r.2)

/-- `_normalize_system` (src/core/sanitize/system_prompt.py).  A list keeps
its original value when no element matches (the failure log is an
observational side effect); a dict becomes the canonical text block; any
other shape becomes the bare replacement string — with no marker check. -/
def normalize_system (system_prompt : Str) (original_system : JVal) : JVal :=
  match original_system with
  | .arr items =>
    let r := normalize_list system_prompt items
    if r.2 then .arr r.1 else .arr items
  | .obj _ => .obj [(lit "type", .str (lit "text")), (lit "text", .str system_prompt)]
  | _ => .str system_prompt

/-- `replace_system_prompt_inplace` (src/core/sanitize/system_prompt.py),
value semantics of the body after the call.  The built-in default prompt is
a data file outside the sources, so it is a parameter `default_prompt`;
`system_prompt or get_default_system_prompt()` falls back on `none` or the
empty string. -/
def replace_system_prompt_inplace (body : Dict) (system_prompt : Option Str)
    (default_prompt : Str) : Dict :=
  if !dHas body (lit "system") then body
  else
    let prompt :=
      match system_prompt with
      | some p => if p.isEmpty then default_prompt else p
      | none => default_prompt
    let original_system := dGetD body (lit "system") .null
    let original_text := extract_system_text original_system
    let merged_prompt := merge_env prompt original_text
    let normalized := normalize_system merged_prompt original_system
    if original_system ≠ normalized then dSet body (lit "system") normalized
    else body

/-- No element matching the marker leaves the list loop's output equal to
its input, with the replaced flag false. -/
theorem normalize_list_no_match (p : Str) (items : List JVal)
    (h : items.all (fun i => !matches_marker i) = true) :
    normalize_list p items = (items, false) := by
  induction items with
  | nil => rfl
  | cons item rest ih =>
    rw [List.all_cons, Bool.and_eq_true] at h
    unfold normalize_list
    rw [ih h.2]
    have hi : matches_marker item = false := by
      cases hmm : matches_marker item
      · rfl
      · rw [hmm] at h
        exact absurd h.1 (by decide)
    rw [hi]
    rfl

end system_prompt

/-- Looking up the key just set. -/
theorem dGet_dSet_same (kvs : Dict) (k : Str) (v : JVal) :
    dGet (dSet kvs k v) k = some v := by
  induction kvs with
  | nil => simp [dSet, dGet]
  | cons kv rest ih =>
    obtain ⟨k2, v2⟩ := kv
    by_cases hk : k2 = k
    · simp [dSet, dGet, hk]
    · simp [dSet, dGet, hk, ih]

/-- A pattern spliced into the middle of a string is a substring of it. -/
theorem isSubstr_append_self (p a b : Str) :
    isSubstr p (a ++ p ++ b) = true := by
  have hpfx : ∀ (q c : Str), isPfx q (q ++ c) = true := by
    intro q
    induction q with
    | nil => intro c; rfl
    | cons x xs ih => intro c; simp [isPfx, ih]
  induction a with
  | nil =>
    cases hp : p ++ b with
    | nil => simp_all [isSubstr, isPfx]
    | cons y ys =>
      have : isPfx p (p ++ b) = true := hpfx p b
      rw [List.nil_append, hp] at *
      cases p with
      | nil => simp [isSubstr, isPfx]
      | cons z zs => simpa [isSubstr, hp] using Or.inl this
  | cons x xs ih =>
    simp only [List.cons_append, isSubstr, Bool.or_eq_true]
    exact Or.inr ih

/-- A contiguous slice of a string is a substring of it. -/
theorem take_drop_isSubstr (s : Str) (i n : Nat) :
    isSubstr ((s.drop i).take n) s = true := by
  have h1 : s = s.take i ++ ((s.drop i).take n ++ (s.drop i).drop n) := by
    rw [List.take_append_drop, List.take_append_drop]
  have h2 := isSubstr_append_self ((s.drop i).take n) (s.take i)
    ((s.drop i).drop n)
  rw [List.append_assoc, ← h1] at h2
  exact h2

/-- A present substring is found by `findSub`. -/
theorem findSub_isSome_of_isSubstr (hay pat : Str)
    (h : isSubstr pat hay = true) : (findSub hay pat).isSome = true := by
  induction hay with
  | nil =>
    have h2 : isPfx pat [] = true := by simpa [isSubstr] using h
    simp [findSub, h2]
  | cons c rest ih =>
    cases hp : isPfx pat (c :: rest) with
    | true => simp [findSub, hp]
    | false =>
      have h2 : isSubstr pat rest = true := by
        unfold isSubstr at h
        rw [hp] at h
        simpa using h
      have := ih h2
      simp only [findSub, hp, Bool.false_eq_true, if_false]
      simpa [Option.isSome_map] using this

/-- Replacing a present pattern makes the replacement a substring of the
result. -/
theorem replaceFirst_contains (s old new : Str) (i : Nat)
    (h : findSub s old = some i) :
    isSubstr new (replaceFirst s old new) = true := by
  unfold replaceFirst
  rw [h]
  exact isSubstr_append_self _ _ _

/-- An extracted env block is a substring of the text it came from. -/
theorem extract_env_block_isSubstr (text E : Str)
    (h : system_prompt.extract_env_block text = some E) :
    isSubstr E text = true := by
  unfold system_prompt.extract_env_block at h
  cases he : text.isEmpty with
  | true => simp [he] at h
  | false =>
    rw [he] at h
    simp only [Bool.false_eq_true, if_false] at h
    cases hf : findSub text (lit "<env>") with
    | none => rw [hf] at h; cases h
    | some start =>
      rw [hf] at h
      dsimp only at h
      cases hg : findSub (text.drop start) (lit "</env>") with
      | none => rw [hg] at h; cases h
      | some off =>
        rw [hg] at h
        have hE : E = (text.drop start).take (off + (lit "</env>").length) := by
          cases h; rfl
        rw [hE]
        exact take_drop_isSubstr text start _

/-- C6 counterexample: a string-shaped `system` without the marker is still
replaced — `_normalize_system` only checks the marker in the list case, so
the system value changes. -/
theorem C6_counterexample :
    isSubstr (lit "You are an interactive CLI tool") (lit "hello") = false
    ∧ system_prompt.replace_system_prompt_inplace
        [(lit "system", .str (lit "hello"))] (some (lit "PROMPT")) (lit "DEFAULT")
      ≠ [(lit "system", .str (lit "hello"))] := by
  decide

/-- C6 amended: for a list-shaped `system` none of whose elements is a dict
with string text containing the marker, replacement leaves the body
unchanged (and, the embedding being total, raises nothing); string- and
dict-shaped `system` values are replaced unconditionally instead. -/
theorem C6_no_marker_list_unchanged (body : Dict) (items : List JVal)
    (sp : Option Str) (d : Str)
    (hsys : dGet body (lit "system") = some (.arr items))
    (hnm : items.all (fun i => !system_prompt.matches_marker i) = true) :
    system_prompt.replace_system_prompt_inplace body sp d = body := by
  unfold system_prompt.replace_system_prompt_inplace
  have hhas : dHas body (lit "system") = true := by
    unfold dHas
    rw [hsys]
    rfl
  rw [hhas]
  simp only [Bool.not_true, Bool.false_eq_true, if_false, dGetD, hsys,
    Option.getD_some]
  unfold system_prompt.normalize_system
  dsimp only
  rw [system_prompt.normalize_list_no_match _ _ hnm]
  simp

/-- C6 amended, witness: a one-element list without the marker passes
through unchanged. -/
theorem C6_no_marker_list_unchanged_witness :
    system_prompt.replace_system_prompt_inplace
      [(lit "system", .arr [.obj [(lit "type", .str (lit "text")),
        (lit "text", .str (lit "hello"))]])]
      (some (lit "PROMPT")) (lit "DEFAULT")
    = [(lit "system", .arr [.obj [(lit "type", .str (lit "text")),
        (lit "text", .str (lit "hello"))]])] :=
  C6_no_marker_list_unchanged
    [(lit "system", .arr [.obj [(lit "type", .str (lit "text")),
      (lit "text", .str (lit "hello"))]])]
    [.obj [(lit "type", .str (lit "text")), (lit "text", .str (lit "hello"))]]
    (some (lit "PROMPT")) (lit "DEFAULT") (by decide) (by decide)

/-- C7 counterexample: the system text (a plain string list element)
contains both the marker and an env block, yet replacement leaves the body
unchanged — `_normalize_system` only replaces dict elements with string
text, so the output does not contain the replacement prompt at all. -/
theorem C7_counterexample :
    isSubstr (lit "You are an interactive CLI tool")
        (system_prompt.extract_system_text
          (.arr [.str (lit "You are an interactive CLI tool <env>X</env>")]))
      = true
    ∧ system_prompt.extract_env_block
        (system_prompt.extract_system_text
          (.arr [.str (lit "You are an interactive CLI tool <env>X</env>")]))
      = some (lit "<env>X</env>")
    ∧ system_prompt.replace_system_prompt_inplace
        [(lit "system",
          .arr [.str (lit "You are an interactive CLI tool <env>X</env>")])]
        (some (lit "NEW <env>p</env>")) (lit "DEFAULT")
      = [(lit "system",
          .arr [.str (lit "You are an interactive CLI tool <env>X</env>")])]
    ∧ isSubstr (lit "NEW")
        (lit "You are an interactive CLI tool <env>X</env>") = false := by
  decide

/-- C7 amended: when the marker-bearing text is a string-shaped `system`
(or a dict list element with string text), replacement installs the
replacement prompt with the original env block spliced over the
replacement's own env block, preserved verbatim. -/
theorem C7_env_splice_amended (body : Dict) (S P E BE d t : Str) (kvs : Dict) :
    ((dGet body (lit "system") = some (.str S)) →
      isSubstr (lit "You are an interactive CLI tool") S = true →
      system_prompt.extract_env_block S = some E →
      P.isEmpty = false →
      system_prompt.extract_env_block P = some BE →
      dGet (system_prompt.replace_system_prompt_inplace body (some P) d)
          (lit "system")
        = some (.str (replaceFirst P BE E))
      ∧ isSubstr E (replaceFirst P BE E) = true)
    ∧ ((dGet body (lit "system") = some (.arr [.obj kvs])) →
      dGet kvs (lit "text") = some (.str t) →
      isSubstr (lit "You are an interactive CLI tool") t = true →
      system_prompt.extract_env_block t = some E →
      P.isEmpty = false →
      system_prompt.extract_env_block P = some BE →
      dGet (system_prompt.replace_system_prompt_inplace body (some P) d)
          (lit "system")
        = some (.arr [.obj (dSet kvs (lit "text")
            (.str (replaceFirst P BE E)))])) := by
  have hBEsub : ∀ (X Y : Str), system_prompt.extract_env_block X = some Y →
      (findSub X Y).isSome = true := fun X Y h =>
    findSub_isSome_of_isSubstr X Y (extract_env_block_isSubstr X Y h)
  constructor
  · intro hsys hmk hE hPe hBE
    have hSn : pyTruthy (.str S) = true := by
      cases S with
      | nil => exact absurd hmk (by decide)
      | cons a as => rfl
    have hext : system_prompt.extract_system_text (.str S) = S := by
      unfold system_prompt.extract_system_text
      dsimp only
      rw [hSn]
      rfl
    have hmerge : system_prompt.merge_env P S = replaceFirst P BE E := by
      unfold system_prompt.merge_env
      rw [hE]
      dsimp only
      rw [hBE]
    have hhas : dHas body (lit "system") = true := by
      unfold dHas
      rw [hsys]
      rfl
    have hcontains : isSubstr E (replaceFirst P BE E) = true := by
      obtain ⟨i, hi⟩ := Option.isSome_iff_exists.mp (hBEsub P BE hBE)
      exact replaceFirst_contains P BE E i hi
    have hnorm : system_prompt.normalize_system (replaceFirst P BE E) (.str S)
        = .str (replaceFirst P BE E) := rfl
    refine ⟨?_, hcontains⟩
    unfold system_prompt.replace_system_prompt_inplace
    rw [hhas]
    simp only [Bool.not_true, Bool.false_eq_true, if_false, dGetD, hsys,
      Option.getD_some, hext, hPe, hmerge, hnorm]
    by_cases hne : JVal.str S ≠ JVal.str (replaceFirst P BE E)
    · rw [if_pos hne]
      exact dGet_dSet_same body (lit "system") _
    · rw [if_neg hne]
      push_neg at hne
      rw [hsys, hne]
  · intro hsys htext hmk hE hPe hBE
    have hext : system_prompt.extract_system_text (.arr [.obj kvs]) = t := by
      unfold system_prompt.extract_system_text
      simp only [List.map_cons, List.map_nil, dGetD, htext, Option.getD_some]
      rfl
    have hmerge : system_prompt.merge_env P t = replaceFirst P BE E := by
      unfold system_prompt.merge_env
      rw [hE]
      dsimp only
      rw [hBE]
    have hhas : dHas body (lit "system") = true := by
      unfold dHas
      rw [hsys]
      rfl
    have hmm : system_prompt.matches_marker (.obj kvs) = true := by
      unfold system_prompt.matches_marker
      dsimp only
      rw [htext]
      exact hmk
    have hnl : system_prompt.normalize_list (replaceFirst P BE E) [.obj kvs]
        = ([.obj (dSet kvs (lit "text") (.str (replaceFirst P BE E)))], true) := by
      simp [system_prompt.normalize_list, hmm, system_prompt.replaced_item]
    have hnorm : system_prompt.normalize_system (replaceFirst P BE E)
        (.arr [.obj kvs])
        = .arr [.obj (dSet kvs (lit "text") (.str (replaceFirst P BE E)))] := by
      unfold system_prompt.normalize_system
      dsimp only
      rw [hnl]
      rfl
    unfold system_prompt.replace_system_prompt_inplace
    rw [hhas]
    simp only [Bool.not_true, Bool.false_eq_true, if_false, dGetD, hsys,
      Option.getD_some, hext, hPe, hmerge, hnorm]
    by_cases hne : JVal.arr [.obj kvs]
        ≠ JVal.arr [.obj (dSet kvs (lit "text") (.str (replaceFirst P BE E)))]
    · rw [if_pos hne]
      exact dGet_dSet_same body (lit "system") _
    · rw [if_neg hne]
      push_neg at hne
      rw [hsys, hne]

/-- C7 amended, witness: a concrete string system containing the marker and
`<env>X</env>`, replaced by a prompt with its own placeholder env block,
yields the prompt with `<env>X</env>` spliced in and preserved verbatim. -/
theorem C7_env_splice_amended_witness :
    dGet (system_prompt.replace_system_prompt_inplace
        [(lit "system",
          .str (lit "You are an interactive CLI tool <env>X</env> tail"))]
        (some (lit "NEW PROMPT <env>placeholder</env> END")) (lit "DEFAULT"))
      (lit "system")
      = some (.str (replaceFirst (lit "NEW PROMPT <env>placeholder</env> END")
          (lit "<env>placeholder</env>") (lit "<env>X</env>")))
    ∧ isSubstr (lit "<env>X</env>")
        (replaceFirst (lit "NEW PROMPT <env>placeholder</env> END")
          (lit "<env>placeholder</env>") (lit "<env>X</env>")) = true :=
  (C7_env_splice_amended
      [(lit "system",
        .str (lit "You are an interactive CLI tool <env>X</env> tail"))]
      (lit "You are an interactive CLI tool <env>X</env> tail")
      (lit "NEW PROMPT <env>placeholder</env> END")
      (lit "<env>X</env>") (lit "<env>placeholder</env>") (lit "DEFAULT")
      [] []).1 (by decide) (by decide) (by decide) (by decide) (by decide)

/-! ### `src/core/sanitize/search_tools.py` — semantic-search priority -/

namespace search_tools

/-- `GREP_PRIORITY_PREFIX` (src/core/sanitize/search_tools.py). -/
def GREP_PRIORITY_PFX : Str :=
  lit "⚠️ STOP: Before using Grep, consider if a better tool exists:\n\n- \"Find callers of X\" → Use mcp__semvex__find_callers_tool (Grep matches strings, not calls)\n- \"What does X call\" → Use mcp__semvex__find_callees_tool\n- \"Trace path from A to B\" → Use mcp__semvex__get_call_chain_tool\n- \"Find code related to concept\" → Use mcp__semvex__search_code_tool\n\nGrep is ONLY appropriate for:\n- Exact literal strings (error messages, specific constants)\n- Config values or environment variables\n- Comments containing specific text\n\nDO NOT use Grep to verify MCP tool results - MCP tools are authoritative for call relationships.\n\n"

/-- `GLOB_PRIORITY_PREFIX` (src/core/sanitize/search_tools.py). -/
def GLOB_PRIORITY_PFX : Str :=
  lit "For understanding code or finding relevant implementations, prefer semantic search (mcp__semvex__search_code_tool) or Task tool with codebase-explorer agent first.\n\nUse Glob for:\n- Finding files by name pattern (e.g., \"**/*.test.ts\")\n- Listing files in a directory structure\n\n"

/-- One line matching `GREP_ALWAYS_PATTERN`
(`^\s*-\s*ALWAYS use Grep for search tasks\..*?$`, MULTILINE): optional
whitespace, a dash, optional whitespace, the literal directive, rest of the
line.  (Across lines the regex's `\s*` could additionally absorb preceding
all-whitespace lines; every description below is directive-free, where the
substitution is the identity under either reading.) -/
def grep_always_line (line : Str) : Bool :=
  match line.dropWhile isSpaceChar with
  | '-' :: rest =>
    isPfx (lit "ALWAYS use Grep for search tasks.") (rest.dropWhile isSpaceChar)
  | _ => false

/-- `GREP_ALWAYS_PATTERN.sub("", s)`: the matched span runs from the line
start to the line end (`.*?$` with `.` not crossing newlines), so a
matching line keeps only its terminating newline. -/
def grep_always_sub (s : Str) : Str :=
  ['\n'].intercalate ((s.splitOn '\n').map fun line =>
    if grep_always_line line then [] else line)

/-- `prioritize_semantic_search_inplace`'s per-tool loop body
(src/core/sanitize/search_tools.py): Grep descriptions get the directive
removed and the Grep priority text prepended to the `lstrip`ped rest; Glob
descriptions get the Glob priority text prepended — unconditionally, on
every application.  A falsy description (or a non-dict tool) passes
through; a truthy non-string description would make Python's `.lstrip()`
raise and occurs in no input below. -/
def prioritize_tool (tool : JVal) : JVal :=
  match tool with
  | .obj kvs =>
    let name := dGet kvs (lit "name")
    match dGetD kvs (lit "description") (.str []) with
    | .str d =>
      if name = some (.str (lit "Grep")) then
        if d.isEmpty then tool
        else .obj (dSet kvs (lit "description")
          (.str (GREP_PRIORITY_PFX ++ lstrip (grep_always_sub d))))
      else if name = some (.str (lit "Glob")) then
        if d.isEmpty then tool
        else .obj (dSet kvs (lit "description")
          (.str (GLOB_PRIORITY_PFX ++ lstrip d)))
      else tool
    | _ => tool
  | _ => tool

/-- `prioritize_semantic_search_inplace` (src/core/sanitize/search_tools.py),
value semantics: rewrite Grep/Glob descriptions in the tools list. -/
def prioritize_semantic_search (body : Dict) : Dict :=
  match dGet body (lit "tools") with
  | some (.arr tools) =>
    dSet body (lit "tools") (.arr (tools.map prioritize_tool))
  | _ => body

/-- When no line matches the directive pattern, the substitution is the
identity. -/
theorem grep_always_sub_id (s : Str)
    (h : (s.splitOn '\n').all (fun l => !grep_always_line l) = true) :
    grep_always_sub s = s := by
  unfold grep_always_sub
  rw [List.all_eq_true] at h
  have hmap : ∀ (ls : List Str), (∀ l ∈ ls, grep_always_line l = false) →
      ls.map (fun line => if grep_always_line line then [] else line) = ls := by
    intro ls hl
    induction ls with
    | nil => rfl
    | cons l rest ih =>
      have h1 : grep_always_line l = false := hl l (List.mem_cons_self _ _)
      rw [List.map_cons, h1]
      simp only [Bool.false_eq_true, if_false]
      rw [ih fun x hx => hl x (List.mem_cons_of_mem _ hx)]
  rw [hmap (s.splitOn '\n') fun l hl => by simpa using h l hl]
  exact List.intercalate_splitOn s '\n'

end search_tools

/-- A Grep tool dict with description `d`. -/
def grepTool (d : Str) : JVal :=
  .obj [(lit "name", .str (lit "Grep")), (lit "description", .str d)]

set_option maxRecDepth 40000 in
/-- C2 counterexample: on a body with a Grep tool, applying the
semantic-search priority stage — one of the stages `sanitize` composes —
twice prepends its priority text twice: the stage (and hence the pipeline)
is not idempotent. -/
theorem C2_counterexample :
    search_tools.prioritize_semantic_search
      (search_tools.prioritize_semantic_search
        [(lit "tools", .arr [grepTool (lit "x")])])
    ≠ search_tools.prioritize_semantic_search
        [(lit "tools", .arr [grepTool (lit "x")])] := by
  decide

set_option maxRecDepth 40000 in
/-- C2 amended: every application of the semantic-search priority stage
prepends `GREP_PRIORITY_PREFIX` onto a Grep tool's (non-empty,
directive-free) description again, so applying the stage twice differs
from applying it once — neither the stage nor the composed `sanitize`
pipeline is idempotent on such bodies. -/
theorem C2_semantic_search_not_idempotent (d : Str)
    (h1 : d ≠ [])
    (h2 : (d.splitOn '\n').all (fun l => !search_tools.grep_always_line l)
      = true)
    (h3 : (((search_tools.GREP_PRIORITY_PFX ++ lstrip d).splitOn '\n').all
      (fun l => !search_tools.grep_always_line l)) = true) :
    search_tools.prioritize_semantic_search
        [(lit "tools", .arr [grepTool d])]
      = [(lit "tools", .arr [grepTool
          (search_tools.GREP_PRIORITY_PFX ++ lstrip d)])]
    ∧ search_tools.prioritize_semantic_search
        [(lit "tools", .arr [grepTool
          (search_tools.GREP_PRIORITY_PFX ++ lstrip d)])]
      = [(lit "tools", .arr [grepTool (search_tools.GREP_PRIORITY_PFX
          ++ (search_tools.GREP_PRIORITY_PFX ++ lstrip d))])]
    ∧ search_tools.prioritize_semantic_search
        (search_tools.prioritize_semantic_search
          [(lit "tools", .arr [grepTool d])])
      ≠ search_tools.prioritize_semantic_search
          [(lit "tools", .arr [grepTool d])] := by
  have hfst : ∀ z : Str,
      lstrip (search_tools.GREP_PRIORITY_PFX ++ z)
        = search_tools.GREP_PRIORITY_PFX ++ z := fun z => rfl
  have hone : search_tools.prioritize_semantic_search
      [(lit "tools", .arr [grepTool d])]
      = [(lit "tools", .arr [grepTool
          (search_tools.GREP_PRIORITY_PFX ++ lstrip d)])] := by
    cases d with
    | nil => exact absurd rfl h1
    | cons c cs =>
      have hred : search_tools.prioritize_semantic_search
          [(lit "tools", .arr [grepTool (c :: cs)])]
          = [(lit "tools", .arr [grepTool (search_tools.GREP_PRIORITY_PFX
              ++ lstrip (search_tools.grep_always_sub (c :: cs)))])] := rfl
      rw [hred, search_tools.grep_always_sub_id _ h2]
  have htwo : search_tools.prioritize_semantic_search
      [(lit "tools", .arr [grepTool
        (search_tools.GREP_PRIORITY_PFX ++ lstrip d)])]
      = [(lit "tools", .arr [grepTool (search_tools.GREP_PRIORITY_PFX
          ++ (search_tools.GREP_PRIORITY_PFX ++ lstrip d))])] := by
    have hred : search_tools.prioritize_semantic_search
        [(lit "tools", .arr [grepTool
          (search_tools.GREP_PRIORITY_PFX ++ lstrip d)])]
        = [(lit "tools", .arr [grepTool (search_tools.GREP_PRIORITY_PFX
            ++ lstrip (search_tools.grep_always_sub
              (search_tools.GREP_PRIORITY_PFX ++ lstrip d)))])] := rfl
    rw [hred, search_tools.grep_always_sub_id _ h3, hfst (lstrip d)]
  refine ⟨hone, htwo, ?_⟩
  rw [hone, htwo]
  intro heq
  have hstr : search_tools.GREP_PRIORITY_PFX
      ++ (search_tools.GREP_PRIORITY_PFX ++ lstrip d)
      = search_tools.GREP_PRIORITY_PFX ++ lstrip d := by
    simpa [grepTool] using heq
  have hlen := congrArg List.length hstr
  simp only [List.length_append] at hlen
  have hpfx : search_tools.GREP_PRIORITY_PFX.length ≠ 0 := by decide
  omega

set_option maxRecDepth 40000 in
/-- C2 amended, witness: the description `"x"` gains the priority text once
per application. -/
theorem C2_semantic_search_not_idempotent_witness :
    search_tools.prioritize_semantic_search
        (search_tools.prioritize_semantic_search
          [(lit "tools", .arr [grepTool (lit "x")])])
      ≠ search_tools.prioritize_semantic_search
          [(lit "tools", .arr [grepTool (lit "x")])] :=
  (C2_semantic_search_not_idempotent (lit "x") (by decide) (by decide)
    (by decide)).2.2

/-! ### `src/api/handlers.py` — request parsing and dispatch -/

namespace handlers

/-- A FastAPI `Response` as the handler builds it. -/
structure ApiResponse where
  status_code : Nat
  content : Str
  media_type : Str
  deriving DecidableEq

/-- `_parse_json_body` (src/api/handlers.py).  `decode` stands for
`bytes.decode("utf-8", errors="replace")` and `parse` for `json.loads`
(library calls, passed as parameters; `Except` carries the caught
exception's message).  The incoming-request log writes are observational
side effects with no bearing on the outcome. -/
def parse_json_body (decode : List Nat → Str) (parse : Str → Except Str JVal)
    (raw : List Nat) (max_body_size : Nat) (hdrs : List (Str × Str)) :
    ApiResponse ⊕ (JVal × List (Str × Str)) :=
  if raw.length > max_body_size then
    .inl ⟨413, lit "\x7b\"error\": \"Request body too large\"\x7d",
      lit "application/json"⟩
  else
    match parse (decode raw) with
    | .error e =>
      .inl ⟨400, lit "\x7b\"error\": \"Invalid JSON: " ++ e ++ lit "\"\x7d",
        lit "application/json"⟩
    | .ok body => .inr (body, hdrs)

/-- What `_handle_proxy_request` did besides returning a response. -/
structure HandlerOutcome (α : Type) where
  response : ApiResponse
  routing_called : Bool
  upstream_called : Bool
  prepared : Option α
  deriving DecidableEq

/-- `_handle_proxy_request` (src/api/handlers.py): parse, then prepare via
the routing service, then relay upstream.  `prepare` and `proxy` stand for
`routing_service.prepare_messages/prepare_count_tokens` and
`upstream.proxy_request`; the outcome records whether they ran. -/
def handle_proxy_request {α : Type} (decode : List Nat → Str)
    (parse : Str → Except Str JVal) (prepare : JVal → List (Str × Str) → α)
    (proxy : α → ApiResponse) (raw : List Nat) (max_body_size : Nat)
    (hdrs : List (Str × Str)) : HandlerOutcome α :=
  match parse_json_body decode parse raw max_body_size hdrs with
  | .inl resp => ⟨resp, false, false, none⟩
  | .inr (body, headers) =>
    let prepared := prepare body headers
    ⟨proxy prepared, true, true, some prepared⟩

end handlers

/-- C8: an inbound body longer than the configured maximum yields 413 with
the JSON error body, and neither the routing service nor the upstream
client runs — whatever the decoder, parser, router and relay do. -/
theorem C8_oversized_body_413 {α : Type} (decode : List Nat → Str)
    (parse : Str → Except Str JVal) (prepare : JVal → List (Str × Str) → α)
    (proxy : α → handlers.ApiResponse) (raw : List Nat) (max_body_size : Nat)
    (hdrs : List (Str × Str)) (h : raw.length > max_body_size) :
    handlers.handle_proxy_request decode parse prepare proxy raw
        max_body_size hdrs
      = ⟨⟨413, lit "\x7b\"error\": \"Request body too large\"\x7d",
          lit "application/json"⟩, false, false, none⟩ := by
  unfold handlers.handle_proxy_request handlers.parse_json_body
  rw [if_pos h]

/-- C8 witness: a 3-byte body against a 2-byte limit is rejected with 413
and no upstream call. -/
theorem C8_oversized_body_413_witness :
    handlers.handle_proxy_request (fun _ => []) (fun _ => .ok .null)
        (fun _ _ => (0 : Nat)) (fun _ => ⟨200, [], []⟩) [104, 105, 106] 2 []
      = ⟨⟨413, lit "\x7b\"error\": \"Request body too large\"\x7d",
          lit "application/json"⟩, false, false, none⟩ :=
  C8_oversized_body_413 (fun _ => []) (fun _ => .ok .null)
    (fun _ _ => (0 : Nat)) (fun _ => ⟨200, [], []⟩) [104, 105, 106] 2 []
    (by decide)

/-! ### `src/services/upstream.py` — the relay -/

namespace upstream

/-- A FastAPI `Response` as `_build_response` constructs it (content is the
raw byte sequence). -/
structure Resp where
  status_code : Nat
  content : List Nat
  media_type : Str
  deriving DecidableEq

/-- An `httpx.Response` as received from the wire: status line, headers and
the (drainable) body bytes. -/
structure UpResponse where
  status_code : Nat
  headers : List (Str × Str)
  body : List Nat
  deriving DecidableEq

/-- `response.headers.get(k, default)`. -/
def headerGetD (hdrs : List (Str × Str)) (k : Str) (dflt : Str) : Str :=
  match hdrs.find? (fun kv => kv.1 == k) with
  | some kv => kv.2
  | none => dflt

/-- `_build_response` (src/services/upstream.py): status, content and
content-type (defaulting to application/json) carried over verbatim. -/
def build_response (r : UpResponse) : Resp :=
  ⟨r.status_code, r.body,
    headerGetD r.headers (lit "content-type") (lit "application/json")⟩

/-- What `proxy_request` hands back to the handler. -/
inductive ProxyOutcome where
  | buffered (r : Resp)
  | streamed (media_type : Str)
  | raised_timeout
  | raised_connection
  deriving DecidableEq

/-- Side effects of one relay call: the `log_error` observation (status it
carried), whether the error body was drained (`aread`), and whether the
upstream connection was closed before returning (`aclose`; a live stream
instead closes in the `BackgroundTask` once the consumer finishes). -/
structure RelayEffects where
  error_logged : Option Nat
  drained : Bool
  closed_before_return : Bool
  deriving DecidableEq

/-- The transport phase of the outbound call, as `proxy_request`'s
`try/except` distinguishes it. -/
inductive TransportOutcome where
  | ok (resp : UpResponse)
  | timeout
  | connect_error
  | request_error
  deriving DecidableEq

/-- `_streaming_request` (src/services/upstream.py) once `client.send`
produced `resp`: non-200 → drain, log, close, and return an ordinary
buffered response rebuilt from the same status/body/headers; 200 → a live
pass-through stream with the upstream content-type (SSE default), closed
only by the completion hook. -/
def streaming_request (resp : UpResponse) : ProxyOutcome × RelayEffects :=
  if resp.status_code ≠ 200 then
    (.buffered (build_response resp), ⟨some resp.status_code, true, true⟩)
  else
    (.streamed (headerGetD resp.headers (lit "content-type")
      (lit "text/event-stream")), ⟨none, false, false⟩)

/-- `_non_streaming_request` / `_count_tokens_request`: buffered post (the
client drains and releases the connection), `_log_non_200` on error
statuses, response passed through verbatim. -/
def non_streaming_request (resp : UpResponse) : ProxyOutcome × RelayEffects :=
  (.buffered (build_response resp),
   ⟨if resp.status_code ≠ 200 then some resp.status_code else none,
    true, true⟩)

/-- `proxy_request` (src/services/upstream.py): dispatch on endpoint and
`body.get("stream", False)`; `httpx.TimeoutException` becomes a logged 504
`UpstreamTimeoutError`, `ConnectError`/`RequestError` a logged 502
`UpstreamConnectionError`. -/
def proxy_request (endpoint : Str) (body : Dict)
    (transport : TransportOutcome) : ProxyOutcome × RelayEffects :=
  match transport with
  | .ok resp =>
    if endpoint = lit "/v1/messages/count_tokens" then
      non_streaming_request resp
    else if pyTruthy (dGetD body (lit "stream") (.bool false)) then
      streaming_request resp
    else
      non_streaming_request resp
  | .timeout => (.raised_timeout, ⟨some 504, false, false⟩)
  | .connect_error => (.raised_connection, ⟨some 502, false, false⟩)
  | .request_error => (.raised_connection, ⟨some 502, false, false⟩)

end upstream

/-- C4: a streaming message request whose upstream answers non-200 before
any bytes stream yields an ordinary buffered response with exactly the
upstream status, body and content-type — not a stream, and not one of the
synthesized 502/504 outcomes (those arise only from the transport-failure
branches) — with the error body drained, the connection closed, and an
error observation logged. -/
theorem C4_streaming_non200_buffered (body : Dict) (resp : upstream.UpResponse)
    (hstream : pyTruthy (dGetD body (lit "stream") (.bool false)) = true)
    (hne : resp.status_code ≠ 200) :
    upstream.proxy_request (lit "/v1/messages") body (.ok resp)
      = (.buffered ⟨resp.status_code, resp.body,
          upstream.headerGetD resp.headers (lit "content-type")
            (lit "application/json")⟩,
         ⟨some resp.status_code, true, true⟩) := by
  unfold upstream.proxy_request
  dsimp only
  rw [if_neg (by decide), hstream]
  unfold upstream.streaming_request
  rw [if_pos hne]
  rfl

/-- C4 witness: upstream answers 400 with a JSON error body before
streaming; the caller gets that 400 and body as a buffered response. -/
theorem C4_streaming_non200_buffered_witness :
    upstream.proxy_request (lit "/v1/messages")
        [(lit "stream", .bool true)]
        (.ok ⟨400, [(lit "content-type", lit "application/json")], [123, 125]⟩)
      = (.buffered ⟨400, [123, 125], lit "application/json"⟩,
         ⟨some 400, true, true⟩) := by
  have h := C4_streaming_non200_buffered [(lit "stream", .bool true)]
    ⟨400, [(lit "content-type", lit "application/json")], [123, 125]⟩
    (by decide) (by decide)
  rw [h]
  decide

/-! ### `src/core/transform.py` on an explicit heap — aliasing semantics

`strip_anthropic_features` takes a shallow copy of the top-level dict and of
the lists it rewrites, but the message dicts themselves are shared with the
caller, and `msg["content"] = ...` mutates them in place.  To settle the
frame claim the function is re-embedded over an explicit store: objects
live at numeric references, `alloc` appends, and `setObj` mutates —
mirroring each Python statement.  `valueOf` reads a reference back into the
pure `JVal` model (with fuel, since an arbitrary store may contain
cycles). -/

/-- A heap object: scalars, or containers holding references. -/
inductive HObj where
  | hstr (s : Str)
  | hnum (n : Int)
  | hbool (b : Bool)
  | hnull
  | hlist (refs : List Nat)
  | hdict (kvs : List (Str × Nat))
  deriving DecidableEq

/-- The heap: the object at address `i` is entry `i`. -/
abbrev Store : Type := List HObj

/-- Allocate a fresh object; its address is the old length. -/
def alloc (st : Store) (o : HObj) : Store × Nat :=
  (st ++ [o], st.length)

/-- Dereference (out-of-range reads `hnull`; the stores below are closed). -/
def getObj (st : Store) (r : Nat) : HObj :=
  st.getD r .hnull

/-- In-place mutation of the object at `r`. -/
def setObj (st : Store) (r : Nat) (o : HObj) : Store :=
  st.set r o

/-- `d.get(k)` on a heap dict (values are references). -/
def rGet (kvs : List (Str × Nat)) (k : Str) : Option Nat :=
  match kvs with
  | [] => none
  | (k2, v) :: rest => if k2 = k then some v else rGet rest k

/-- `d[k] = v` on a heap dict. -/
def rSet (kvs : List (Str × Nat)) (k : Str) (v : Nat) : List (Str × Nat) :=
  match kvs with
  | [] => [(k, v)]
  | (k2, v2) :: rest =>
    if k2 = k then (k2, v) :: rest else (k2, v2) :: rSet rest k v

/-- `d.pop(k, None)` on a heap dict. -/
def rPop (kvs : List (Str × Nat)) (k : Str) : List (Str × Nat) :=
  match kvs with
  | [] => []
  | (k2, v2) :: rest => if k2 = k then rest else (k2, v2) :: rPop rest k

/-- `_is_noise_reminder` read through the heap (the `&&` chain mirrors the
early returns; a missing `"text"` defaults to the empty string, a non-str
value fails the isinstance check). -/
def h_is_noise (st : Store) (r : Nat) : Bool :=
  match getObj st r with
  | .hdict kvs =>
    (match rGet kvs (lit "type") with
     | some tr =>
       match getObj st tr with
       | .hstr ty => ty == lit "text"
       | _ => false
     | none => false)
    && (match (match rGet kvs (lit "text") with
               | some txr => getObj st txr
               | none => .hstr []) with
        | .hstr t =>
          isSubstr (lit "<system-reminder>") t
          && !isSubstr (lit "# claudeMd") t
          && transform.NOISE_PATTERNS.any (fun p => isSubstr p t)
        | _ => false)
  | _ => false

/-- `[dict(b) if isinstance(b, dict) else b for b in blocks]` followed by
popping `cache_control` from the dict copies: dict blocks are copied to
fresh addresses, other elements keep their (shared) reference. -/
def copy_blocks (st : Store) : List Nat → Store × List Nat
  | [] => (st, [])
  | r :: rest =>
    let p :=
      match getObj st r with
      | .hdict kvs => alloc st (.hdict (rPop kvs (lit "cache_control")))
      | _ => (st, r)
    let q := copy_blocks p.1 rest
    (q.1, p.2 :: q.2)

/-- The per-message statements of `strip_anthropic_features`: when the
(shared) message dict's content is a list, filter out noise blocks, copy
and clean the survivors, allocate the new content list, and assign it into
the shared message dict — an in-place `setObj` the caller's body
observes. -/
def strip_msg_heap (st : Store) (m : Nat) : Store :=
  match getObj st m with
  | .hdict mkvs =>
    match rGet mkvs (lit "content") with
    | some cref =>
      match getObj st cref with
      | .hlist brefs =>
        let filtered := brefs.filter (fun b => !h_is_noise st b)
        let p := copy_blocks st filtered
        let q := alloc p.1 (.hlist p.2)
        setObj q.1 m (.hdict (rSet mkvs (lit "content") q.2))
      | _ => st
    | _ => st
  | _ => st

/-- `for msg in body["messages"]: ...` in order. -/
def process_msgs (st : Store) : List Nat → Store
  | [] => st
  | m :: rest => process_msgs (strip_msg_heap st m) rest

/-- The `system` statements of `strip_anthropic_features`: shallow-copy the
list with dict items copied and `cache_control` popped, and assign the
fresh list into the (fresh) body copy. -/
def handle_system (st : Store) (bref : Nat) : Store :=
  match getObj st bref with
  | .hdict kvs =>
    match rGet kvs (lit "system") with
    | some sref =>
      match getObj st sref with
      | .hlist rs =>
        let p := copy_blocks st rs
        let q := alloc p.1 (.hlist p.2)
        setObj q.1 bref (.hdict (rSet kvs (lit "system") q.2))
      | _ => st
    | none => st
  | _ => st

/-- The `messages` statements: `body["messages"] = list(body["messages"])`
allocates a fresh list holding the same (shared) message references, then
each message is processed in place. -/
def handle_messages (st : Store) (bref : Nat) : Store :=
  match getObj st bref with
  | .hdict kvs =>
    match rGet kvs (lit "messages") with
    | some mref =>
      match getObj st mref with
      | .hlist mrefs =>
        let q := alloc st (.hlist mrefs)
        let st2 := setObj q.1 bref (.hdict (rSet kvs (lit "messages") q.2))
        process_msgs st2 mrefs
      | _ => st
    | none => st
  | _ => st

/-- `strip_anthropic_features` (src/core/transform.py) over the heap:
`body.copy()` allocates a fresh top-level dict (with `metadata` popped on
the copy), then the system and messages statements run.  Returns the store
after the call and the reference of the returned body. -/
def strip_anthropic_features_heap (st : Store) (bodyRef : Nat) :
    Store × Nat :=
  match getObj st bodyRef with
  | .hdict bodyKvs =>
    let p := alloc st (.hdict (rPop bodyKvs (lit "metadata")))
    let st2 := handle_system p.1 p.2
    let st3 := handle_messages st2 p.2
    (st3, p.2)
  | _ => (st, bodyRef)

/-- Read a reference back as a JSON value (fuel-bounded). -/
def valueOf : Nat → Store → Nat → JVal
  | 0, _, _ => .null
  | fuel + 1, st, r =>
    match getObj st r with
    | .hstr s => .str s
    | .hnum n => .num n
    | .hbool b => .bool b
    | .hnull => .null
    | .hlist rs => .arr (rs.map fun r2 => valueOf fuel st r2)
    | .hdict kvs => .obj (kvs.map fun kv => (kv.1, valueOf fuel st kv.2))

/-- Every reference stored in any object is in range. -/
def wfStore (st : Store) : Bool :=
  st.all fun o =>
    match o with
    | .hlist rs => rs.all fun r => r < st.length
    | .hdict kvs => kvs.all fun kv => kv.2 < st.length
    | _ => true

/-- The message at `m` has no list-valued content (so the in-place content
assignment cannot fire on it). -/
def msg_content_not_list (st : Store) (m : Nat) : Bool :=
  match getObj st m with
  | .hdict mkvs =>
    match rGet mkvs (lit "content") with
    | some cref =>
      match getObj st cref with
      | .hlist _ => false
      | _ => true
    | none => true
  | _ => true

/-- No message of the body has list-valued content. -/
def no_list_content (st : Store) (bodyRef : Nat) : Bool :=
  match getObj st bodyRef with
  | .hdict kvs =>
    match rGet kvs (lit "messages") with
    | some mref =>
      match getObj st mref with
      | .hlist mrefs => mrefs.all fun m => msg_content_not_list st m
      | _ => true
    | none => true
  | _ => true

/-- The concrete body heap used against the frame claim: a body whose one
user message's content list holds a single noise system-reminder block. -/
def store10 : Store :=
  [.hstr (lit "user"),
   .hstr (lit "text"),
   .hstr (lit "<system-reminder>Plan mode is active</system-reminder>"),
   .hdict [(lit "type", 1), (lit "text", 2)],
   .hlist [3],
   .hdict [(lit "role", 0), (lit "content", 4)],
   .hlist [5],
   .hdict [(lit "messages", 6)]]

/-- C10 counterexample: after the call, the caller's retained body (address
7) is no longer value-equal to its pre-call state — the shared message dict
was mutated in place, its content list emptied — refuting the claimed
absence of in-place aliasing. -/
theorem C10_counterexample :
    valueOf 10 store10 7
      = .obj [(lit "messages", .arr [.obj [(lit "role", .str (lit "user")),
          (lit "content", .arr [.obj [(lit "type", .str (lit "text")),
            (lit "text", .str (lit
              "<system-reminder>Plan mode is active</system-reminder>"))]])]])]
    ∧ valueOf 10 (strip_anthropic_features_heap store10 7).1 7
      = .obj [(lit "messages", .arr [.obj [(lit "role", .str (lit "user")),
          (lit "content", .arr [])]])]
    ∧ valueOf 10 (strip_anthropic_features_heap store10 7).1 7
      ≠ valueOf 10 store10 7 := by
  refine ⟨by decide, by decide, by decide⟩

/-- Dereferencing below the old length is unchanged by an append. -/
theorem getObj_append (st ext : Store) (i : Nat) (h : i < st.length) :
    getObj (st ++ ext) i = getObj st i :=
  List.getD_append st ext .hnull i h

/-- The freshly appended object lives at the old length. -/
theorem getObj_append_self (st : Store) (o : HObj) :
    getObj (st ++ [o]) st.length = o := by
  unfold getObj
  rw [List.getD_append_right st [o] .hnull st.length le_rfl]
  simp

/-- Mutation elsewhere does not change a read. -/
theorem getObj_set_ne (st : Store) (j : Nat) (o : HObj) (i : Nat)
    (h : i ≠ j) : getObj (setObj st j o) i = getObj st i := by
  unfold getObj setObj
  by_cases hi : i < st.length
  · have hi2 : i < (st.set j o).length := by simpa using hi
    rw [List.getD_eq_getElem _ _ hi2, List.getD_eq_getElem _ _ hi]
    exact List.getElem_set_ne (Ne.symm h) hi2
  · rw [List.getD_eq_default, List.getD_eq_default]
    · exact Nat.le_of_not_lt hi
    · simpa using Nat.le_of_not_lt hi

/-- An in-range mutation is read back. -/
theorem getObj_set_self (st : Store) (j : Nat) (o : HObj)
    (h : j < st.length) : getObj (setObj st j o) j = o := by
  unfold getObj setObj
  have h2 : j < (st.set j o).length := by simpa using h
  rw [List.getD_eq_getElem _ _ h2]
  exact List.getElem_set_self h2

/-- `st'` reads like `st` at every address below `n`. -/
def AgreesBelow (st st' : Store) (n : Nat) : Prop :=
  ∀ i, i < n → getObj st' i = getObj st i

theorem agreesBelow_refl (st : Store) (n : Nat) : AgreesBelow st st n :=
  fun _ _ => rfl

theorem agreesBelow_trans {a b c : Store} {n : Nat}
    (h1 : AgreesBelow a b n) (h2 : AgreesBelow b c n) : AgreesBelow a c n :=
  fun i hi => (h2 i hi).trans (h1 i hi)

theorem agreesBelow_append (st ext : Store) {n : Nat} (hn : n ≤ st.length) :
    AgreesBelow st (st ++ ext) n :=
  fun i hi => getObj_append st ext i (Nat.lt_of_lt_of_le hi hn)

theorem agreesBelow_set (st : Store) (j : Nat) (o : HObj) {n : Nat}
    (hn : n ≤ j) : AgreesBelow st (setObj st j o) n :=
  fun i hi => getObj_set_ne st j o i (Nat.ne_of_lt (Nat.lt_of_lt_of_le hi hn))

/-- `copy_blocks` only allocates: the store grows by a suffix. -/
theorem copy_blocks_extends (rs : List Nat) (st : Store) :
    ∃ ext, (copy_blocks st rs).1 = st ++ ext := by
  induction rs generalizing st with
  | nil => exact ⟨[], by simp [copy_blocks]⟩
  | cons r rest ih =>
    unfold copy_blocks
    cases ho : getObj st r with
    | hdict kvs =>
      obtain ⟨e2, he2⟩ := ih (st ++ [.hdict (rPop kvs (lit "cache_control"))])
      exact ⟨[.hdict (rPop kvs (lit "cache_control"))] ++ e2, by
        simp only [ho, alloc]
        rw [he2, List.append_assoc]⟩
    | hstr s =>
      obtain ⟨e2, he2⟩ := ih st
      exact ⟨e2, by simp only [ho]; exact he2⟩
    | hnum n =>
      obtain ⟨e2, he2⟩ := ih st
      exact ⟨e2, by simp only [ho]; exact he2⟩
    | hbool b =>
      obtain ⟨e2, he2⟩ := ih st
      exact ⟨e2, by simp only [ho]; exact he2⟩
    | hnull =>
      obtain ⟨e2, he2⟩ := ih st
      exact ⟨e2, by simp only [ho]; exact he2⟩
    | hlist xs =>
      obtain ⟨e2, he2⟩ := ih st
      exact ⟨e2, by simp only [ho]; exact he2⟩

/-- A dereference in range hits a store entry. -/
theorem getObj_mem (st : Store) (r : Nat) (h : r < st.length) :
    getObj st r ∈ st := by
  unfold getObj
  rw [List.getD_eq_getElem _ _ h]
  exact List.getElem_mem h

/-- A successful dict lookup returns one of the stored pairs. -/
theorem rGet_mem (kvs : List (Str × Nat)) (k : Str) (v : Nat)
    (h : rGet kvs k = some v) : ∃ k2, (k2, v) ∈ kvs := by
  induction kvs with
  | nil => cases h
  | cons kv rest ih =>
    obtain ⟨k2, v2⟩ := kv
    unfold rGet at h
    by_cases hk : k2 = k
    · rw [if_pos hk] at h
      cases h
      exact ⟨k2, List.mem_cons_self _ _⟩
    · rw [if_neg hk] at h
      obtain ⟨k3, hk3⟩ := ih h
      exact ⟨k3, List.mem_cons_of_mem _ hk3⟩

/-- In a well-formed store, list entries point in range. -/
theorem wf_list_ref {st : Store} {r : Nat} {rs : List Nat}
    (hwf : wfStore st = true) (hr : r < st.length)
    (ho : getObj st r = .hlist rs) : ∀ x ∈ rs, x < st.length := by
  intro x hx
  have hmem := getObj_mem st r hr
  rw [ho] at hmem
  rw [wfStore, List.all_eq_true] at hwf
  have := hwf _ hmem
  simp only [List.all_eq_true] at this
  simpa using this x hx

/-- In a well-formed store, dict values point in range. -/
theorem wf_dict_ref {st : Store} {r : Nat} {kvs : List (Str × Nat)}
    (hwf : wfStore st = true) (hr : r < st.length)
    (ho : getObj st r = .hdict kvs) : ∀ kv ∈ kvs, kv.2 < st.length := by
  intro kv hkv
  have hmem := getObj_mem st r hr
  rw [ho] at hmem
  rw [wfStore, List.all_eq_true] at hwf
  have := hwf _ hmem
  simp only [List.all_eq_true] at this
  simpa using this kv hkv

/-- Reads below the old length determine `valueOf` there, in a well-formed
store. -/
theorem valueOf_agrees (fuel : Nat) {st st' : Store}
    (hwf : wfStore st = true) (hag : AgreesBelow st st' st.length) :
    ∀ r, r < st.length → valueOf fuel st' r = valueOf fuel st r := by
  induction fuel with
  | zero => intro r _; rfl
  | succ f ih =>
    intro r hr
    unfold valueOf
    rw [hag r hr]
    cases ho : getObj st r with
    | hstr s => rfl
    | hnum n => rfl
    | hbool b => rfl
    | hnull => rfl
    | hlist rs =>
      have hb := wf_list_ref hwf hr ho
      simp only [JVal.arr.injEq]
      exact List.map_congr_left fun x hx => ih x (hb x hx)
    | hdict kvs =>
      have hb := wf_dict_ref hwf hr ho
      simp only [JVal.obj.injEq]
      exact List.map_congr_left fun kv hkv => by
        rw [ih kv.2 (hb kv hkv)]

/-- Setting one key leaves the other lookups alone. -/
theorem rGet_rSet_ne (kvs : List (Str × Nat)) (k k2 : Str) (v : Nat)
    (h : k2 ≠ k) : rGet (rSet kvs k v) k2 = rGet kvs k2 := by
  have hne : ¬(k = k2) := fun hh => h hh.symm
  induction kvs with
  | nil =>
    show rGet [(k, v)] k2 = none
    unfold rGet
    rw [if_neg hne]
    rfl
  | cons kv rest ih =>
    obtain ⟨k3, v3⟩ := kv
    unfold rSet
    by_cases hk : k3 = k
    · rw [if_pos hk]
      have e1 : rGet ((k3, v) :: rest) k2
          = if k3 = k2 then some v else rGet rest k2 := rfl
      have e2 : rGet ((k3, v3) :: rest) k2
          = if k3 = k2 then some v3 else rGet rest k2 := rfl
      have hk32 : ¬(k3 = k2) := by
        rw [hk]
        exact hne
      rw [e1, e2, if_neg hk32, if_neg hk32]
    · rw [if_neg hk]
      have e1 : rGet ((k3, v3) :: rSet rest k v) k2
          = if k3 = k2 then some v3 else rGet (rSet rest k v) k2 := rfl
      have e2 : rGet ((k3, v3) :: rest) k2
          = if k3 = k2 then some v3 else rGet rest k2 := rfl
      rw [e1, e2, ih]

/-- Popping one key leaves the other lookups alone. -/
theorem rGet_rPop_ne (kvs : List (Str × Nat)) (k k2 : Str)
    (h : k2 ≠ k) : rGet (rPop kvs k) k2 = rGet kvs k2 := by
  have hne : ¬(k = k2) := fun hh => h hh.symm
  induction kvs with
  | nil => rfl
  | cons kv rest ih =>
    obtain ⟨k3, v3⟩ := kv
    unfold rPop
    by_cases hk : k3 = k
    · rw [if_pos hk]
      have e2 : rGet ((k3, v3) :: rest) k2
          = if k3 = k2 then some v3 else rGet rest k2 := rfl
      have hk32 : ¬(k3 = k2) := by
        rw [hk]
        exact hne
      rw [e2, if_neg hk32]
    · rw [if_neg hk]
      have e1 : rGet ((k3, v3) :: rPop rest k) k2
          = if k3 = k2 then some v3 else rGet (rPop rest k) k2 := rfl
      have e2 : rGet ((k3, v3) :: rest) k2
          = if k3 = k2 then some v3 else rGet rest k2 := rfl
      rw [e1, e2, ih]

/-- A message without list-valued content is left alone. -/
theorem strip_msg_id (st : Store) (m : Nat)
    (hm : msg_content_not_list st m = true) : strip_msg_heap st m = st := by
  unfold strip_msg_heap
  unfold msg_content_not_list at hm
  cases ho : getObj st m with
  | hdict mkvs =>
    rw [ho] at hm
    dsimp only at hm ⊢
    cases hc : rGet mkvs (lit "content") with
    | none => rfl
    | some cref =>
      dsimp only at hm ⊢
      cases hco : getObj st cref with
      | hlist brefs =>
        rw [hc] at hm
        dsimp only at hm
        rw [hco] at hm
        simp at hm
      | hstr s => rfl
      | hnum n => rfl
      | hbool b => rfl
      | hnull => rfl
      | hdict kvs2 => rfl
  | hstr s => rfl
  | hnum n => rfl
  | hbool b => rfl
  | hnull => rfl
  | hlist rs => rfl

/-- When no message has list-valued content, the message loop is the
identity on the store. -/
theorem process_msgs_id (st : Store) (mrefs : List Nat)
    (h : ∀ m ∈ mrefs, msg_content_not_list st m = true) :
    process_msgs st mrefs = st := by
  induction mrefs with
  | nil => rfl
  | cons m rest ih =>
    unfold process_msgs
    rw [strip_msg_id st m (h m (List.mem_cons_self _ _))]
    exact ih fun x hx => h x (List.mem_cons_of_mem _ hx)

/-- `msg_content_not_list` only reads below the old length, so it
transfers across agreement. -/
theorem msg_not_list_transfer {st st' : Store} (m : Nat)
    (hwf : wfStore st = true) (hag : AgreesBelow st st' st.length)
    (hm : m < st.length) :
    msg_content_not_list st' m = msg_content_not_list st m := by
  unfold msg_content_not_list
  rw [hag m hm]
  cases ho : getObj st m with
  | hdict mkvs =>
    dsimp only
    cases hc : rGet mkvs (lit "content") with
    | none => rfl
    | some cref =>
      have hcl : cref < st.length := by
        obtain ⟨k2, hk2⟩ := rGet_mem mkvs (lit "content") cref hc
        exact wf_dict_ref hwf hm ho (k2, cref) hk2
      dsimp only
      rw [hag cref hcl]
  | hstr s => rfl
  | hnum n => rfl
  | hbool b => rfl
  | hnull => rfl
  | hlist rs => rfl

/-- `handle_system` never touches addresses below the body copy: it agrees
below any `n ≤ min (st.length) b`, and the body's dict keeps every key
other than `"system"`. -/
theorem handle_system_spec (st : Store) (b : Nat) (kvs : List (Str × Nat))
    (hb : getObj st b = .hdict kvs) (hblen : b < st.length) (n : Nat)
    (hn : n ≤ st.length) (hnb : n ≤ b) :
    AgreesBelow st (handle_system st b) n
    ∧ ∃ kvs2, getObj (handle_system st b) b = .hdict kvs2
      ∧ ∀ k, k ≠ lit "system" → rGet kvs2 k = rGet kvs k := by
  unfold handle_system
  rw [hb]
  dsimp only
  cases hs : rGet kvs (lit "system") with
  | none => exact ⟨agreesBelow_refl st n, kvs, hb, fun k _ => rfl⟩
  | some sref =>
    dsimp only
    cases hso : getObj st sref with
    | hlist rs =>
      dsimp only [alloc]
      obtain ⟨e1, he1⟩ := copy_blocks_extends rs st
      have hlen1 : st.length ≤ (copy_blocks st rs).1.length := by
        rw [he1]
        simp
      constructor
      · refine agreesBelow_trans (?_ : AgreesBelow st (copy_blocks st rs).1 n)
          (agreesBelow_trans
            (agreesBelow_append _ [.hlist (copy_blocks st rs).2]
              (le_trans hn hlen1))
            (agreesBelow_set _ b _ hnb))
        rw [he1]
        exact agreesBelow_append st e1 hn
      · refine ⟨rSet kvs (lit "system") (copy_blocks st rs).1.length, ?_,
          fun k hk => rGet_rSet_ne kvs (lit "system") k _ hk⟩
        apply getObj_set_self
        have hb2 : b < (copy_blocks st rs).1.length :=
          Nat.lt_of_lt_of_le hblen hlen1
        simpa using Nat.lt_succ_of_lt hb2
    | hstr s => exact ⟨agreesBelow_refl st n, kvs, hb, fun k _ => rfl⟩
    | hnum n2 => exact ⟨agreesBelow_refl st n, kvs, hb, fun k _ => rfl⟩
    | hbool b2 => exact ⟨agreesBelow_refl st n, kvs, hb, fun k _ => rfl⟩
    | hnull => exact ⟨agreesBelow_refl st n, kvs, hb, fun k _ => rfl⟩
    | hdict kvs3 => exact ⟨agreesBelow_refl st n, kvs, hb, fun k _ => rfl⟩

/-- C10 amended: the top-level dict, the system list and the content blocks
are copied before mutation, but message dicts are shared with the caller
and the content assignment mutates them in place; the caller's retained
body stays value-equal to its pre-call state precisely on bodies where no
message carries list-valued content (counterexample: with list content the
caller's message is emptied in place). -/
theorem C10_strip_frame_amended (st : Store) (bodyRef : Nat) (fuel : Nat)
    (hwf : wfStore st = true) (hr : bodyRef < st.length)
    (hnl : no_list_content st bodyRef = true) :
    valueOf fuel (strip_anthropic_features_heap st bodyRef).1 bodyRef
      = valueOf fuel st bodyRef := by
  unfold strip_anthropic_features_heap
  cases hbody : getObj st bodyRef with
  | hdict bodyKvs =>
    dsimp only [alloc]
    have hb1 : getObj (st ++ [HObj.hdict (rPop bodyKvs (lit "metadata"))])
        st.length = .hdict (rPop bodyKvs (lit "metadata")) :=
      getObj_append_self st _
    have hblen1 : st.length
        < (st ++ [HObj.hdict (rPop bodyKvs (lit "metadata"))]).length := by
      simp
    obtain ⟨hagHS, kvs2, hb2, hk2⟩ := handle_system_spec
      (st ++ [HObj.hdict (rPop bodyKvs (lit "metadata"))]) st.length
      (rPop bodyKvs (lit "metadata")) hb1 hblen1 st.length
      (by simp) le_rfl
    have hag2 : AgreesBelow st
        (handle_system (st ++ [HObj.hdict (rPop bodyKvs (lit "metadata"))])
          st.length) st.length :=
      agreesBelow_trans (agreesBelow_append st _ le_rfl) hagHS
    have hfinal : AgreesBelow st
        (handle_messages
          (handle_system (st ++ [HObj.hdict (rPop bodyKvs (lit "metadata"))])
            st.length) st.length) st.length := by
      generalize hst2 : handle_system
        (st ++ [HObj.hdict (rPop bodyKvs (lit "metadata"))]) st.length
        = st2 at hag2 hb2
      have hb2len : st.length < st2.length := by
        by_contra hcon
        have hnullread : getObj st2 st.length = .hnull := by
          unfold getObj
          rw [List.getD_eq_default]
          omega
        rw [hb2] at hnullread
        cases hnullread
      unfold handle_messages
      rw [hb2]
      dsimp only
      have hmsgkey : rGet kvs2 (lit "messages")
          = rGet bodyKvs (lit "messages") := by
        rw [hk2 (lit "messages") (by decide),
          rGet_rPop_ne _ _ _ (by decide)]
      rw [hmsgkey]
      cases hms : rGet bodyKvs (lit "messages") with
      | none => exact hag2
      | some mref =>
        dsimp only
        have hmlen : mref < st.length := by
          obtain ⟨k2, hk2m⟩ := rGet_mem bodyKvs (lit "messages") mref hms
          exact wf_dict_ref hwf hr hbody (k2, mref) hk2m
        have hmo2 : getObj st2 mref = getObj st mref := hag2 mref hmlen
        cases hmo : getObj st mref with
        | hlist mrefs =>
          rw [hmo2, hmo]
          dsimp only [alloc]
          have hagAB : AgreesBelow st
              (setObj (st2 ++ [HObj.hlist mrefs]) st.length
                (.hdict (rSet kvs2 (lit "messages") st2.length)))
              st.length :=
            agreesBelow_trans hag2
              (agreesBelow_trans
                (agreesBelow_append st2 [HObj.hlist mrefs]
                  (Nat.le_of_lt hb2len))
                (agreesBelow_set _ st.length _ le_rfl))
          have hprocid : process_msgs
              (setObj (st2 ++ [HObj.hlist mrefs]) st.length
                (.hdict (rSet kvs2 (lit "messages") st2.length))) mrefs
              = setObj (st2 ++ [HObj.hlist mrefs]) st.length
                (.hdict (rSet kvs2 (lit "messages") st2.length)) := by
            apply process_msgs_id
            intro m hm
            have hmlt : m < st.length := wf_list_ref hwf hmlen hmo m hm
            rw [msg_not_list_transfer m hwf hagAB hmlt]
            unfold no_list_content at hnl
            rw [hbody] at hnl
            dsimp only at hnl
            rw [hms] at hnl
            dsimp only at hnl
            rw [hmo] at hnl
            dsimp only at hnl
            rw [List.all_eq_true] at hnl
            simpa using hnl m hm
          rw [hprocid]
          exact hagAB
        | hstr s =>
          rw [hmo2, hmo]
          exact hag2
        | hnum n2 =>
          rw [hmo2, hmo]
          exact hag2
        | hbool b2 =>
          rw [hmo2, hmo]
          exact hag2
        | hnull =>
          rw [hmo2, hmo]
          exact hag2
        | hdict kvs3 =>
          rw [hmo2, hmo]
          exact hag2
    exact valueOf_agrees fuel hwf hfinal bodyRef hr
  | hstr s => rfl
  | hnum n2 => rfl
  | hbool b2 => rfl
  | hnull => rfl
  | hlist rs => rfl

/-- A body heap whose one message has string content (and a metadata key),
for the frame witness. -/
def store10b : Store :=
  [.hstr (lit "user"),
   .hstr (lit "hi"),
   .hdict [(lit "role", 0), (lit "content", 1)],
   .hlist [2],
   .hdict [(lit "messages", 3), (lit "metadata", 0)]]

/-- C10 amended, witness: with string-valued message content the caller's
body (address 4) reads back unchanged after the call. -/
theorem C10_strip_frame_amended_witness :
    valueOf 10 (strip_anthropic_features_heap store10b 4).1 4
      = valueOf 10 store10b 4 :=
  C10_strip_frame_amended store10b 4 10 (by decide) (by decide) (by decide)
